import Mathlib

/-!
Verification of the client-side capture encoder, playback scheduler,
session-protocol wiring and message handler of `src/static/script.js`
(orca-assistant). Real numbers produced by the Web Audio clock and the
sample values are embedded as rationals; byte buffers as `List ℕ`
(each entry < 256); 16-bit wrap-around arithmetic is made explicit.
-/

/-! ## Playback clock (script.js lines 219-243) -/

/-- State of the playback side: whether `audioContext` has been created
(script.js line 221) and the module-level `playheadTime` variable
(script.js line 19, initialised to 0). -/
structure PlaybackState where
  initialized : Bool
  playheadTime : ℚ
  deriving DecidableEq, Repr

/-- The initial client playback state: no audio context, `playheadTime = 0`
(script.js lines 18-19). -/
def initPlayback : PlaybackState := ⟨false, 0⟩

/-- The clock update of `playAudioChunk` (script.js lines 236-242) for one
chunk: given the current playhead value, the audio context's `currentTime`
(`now`) and the chunk's duration, return the scheduled start time
(`source.start(playheadTime)`, line 241) and the advanced playhead
(line 242).  The snap threshold `now + 0.15` is line 237. -/
def scheduleChunk (playhead now dur : ℚ) : ℚ × ℚ :=
  let start := if playhead < now + 3/20 then now + 3/20 else playhead
  (start, start + dur)

/-- One whole `playAudioChunk` call at the clock level (script.js lines
220-243): if the context is not yet created it is created and the playhead
initialised to `currentTime` (lines 221-224), then the chunk is scheduled
(lines 236-242).  Returns the scheduled start time and the new state. -/
def playheadUpdate (st : PlaybackState) (now dur : ℚ) : ℚ × PlaybackState :=
  let ph0 := if st.initialized then st.playheadTime else now
  let r := scheduleChunk ph0 now dur
  (r.1, ⟨true, r.2⟩)

/-- Folding a sequence of `playAudioChunk` calls, each given as a pair
`(now, duration)`, over the playback state. -/
def runPlayhead (st : PlaybackState) (calls : List (ℚ × ℚ)) : PlaybackState :=
  calls.foldl (fun s c => (playheadUpdate s c.1 c.2).2) st

/-! ## Capture encoder (script.js lines 183-192, `floatTo16BitPCM`) -/

/-- The clamp `Math.max(-1, Math.min(1, x))` of script.js line 188. -/
def clamp1 (x : ℚ) : ℚ := max (-1) (min 1 x)

/-- JavaScript's ToInteger step used by `DataView.setInt16`: truncation
toward zero. -/
def truncJS (q : ℚ) : ℤ := if q < 0 then ⌈q⌉ else ⌊q⌋

/-- The wrap applied by `DataView.setInt16` / read back by
`DataView.getInt16`: reduce modulo 2^16 into `[-32768, 32767]`. -/
def toInt16 (n : ℤ) : ℤ :=
  if 32768 ≤ n % 65536 then n % 65536 - 65536 else n % 65536

/-- The integer computed for one sample before the 16-bit store
(script.js line 189): clamp to `[-1,1]`, scale negatives by `0x8000` and
non-negatives by `0x7fff`, truncate toward zero. -/
def encodeRaw (x : ℚ) : ℤ :=
  let s := clamp1 x
  truncJS (if s < 0 then s * 32768 else s * 32767)

/-- The 16-bit value actually stored for one sample by
`view.setInt16(offset, s < 0 ? s * 0x8000 : s * 0x7fff, true)`
(script.js line 189). -/
def encodeSample (x : ℚ) : ℤ := toInt16 (encodeRaw x)

/-- Little-endian byte layout of the stored 16-bit value (the `true` flag
of `setInt16` on script.js line 189): low byte first. -/
def int16ToBytes (v : ℤ) : List ℕ :=
  [(v % 65536).toNat % 256, (v % 65536).toNat / 256]

/-- `floatTo16BitPCM` (script.js lines 183-192): each float sample becomes
two little-endian bytes of its encoded 16-bit value. -/
def floatTo16BitPCM : List ℚ → List ℕ
  | [] => []
  | x :: rest => int16ToBytes (encodeSample x) ++ floatTo16BitPCM rest

/-! ## Playback decoder (script.js lines 195-218, `base64ToPCMFloat32`) -/

/-- `view.getInt16(i * 2, true)` (script.js line 214): assemble a signed
16-bit value from a little-endian byte pair. -/
def readInt16LE (lo hi : ℕ) : ℤ := toInt16 ((lo : ℤ) + 256 * hi)

/-- The sample loop of script.js lines 213-216: every consecutive
little-endian byte pair becomes `int16 / 32768`.  A dangling final byte
(odd length) yields no sample. -/
def pcmPairs : List ℕ → List ℚ
  | [] => []
  | [_] => []
  | lo :: hi :: rest => ((readInt16LE lo hi : ℚ) / 32768) :: pcmPairs rest

/-- The header skip of script.js lines 197-201: drop a 44-byte container
header exactly when the decoded binary is longer than 44 bytes and starts
with the bytes of `"RIFF"` (82, 73, 70, 70). -/
def stripHeader (bytes : List ℕ) : List ℕ :=
  if 44 < bytes.length ∧ bytes.take 4 = [82, 73, 70, 70] then bytes.drop 44 else bytes

/-- `base64ToPCMFloat32` (script.js lines 195-218) on the binary string
already decoded by `atob` (the browser's base64 decoder, a collaborator),
given as a byte list.  When the post-strip byte count is odd the source
throws a `RangeError` from `new Float32Array(sampleCount)` (line 211,
`sampleCount` not an integer), modelled as `none`; otherwise every byte
pair becomes one sample. -/
def base64ToPCMFloat32 (bytes : List ℕ) : Option (List ℚ) :=
  let data := stripHeader bytes
  if data.length % 2 = 0 then some (pcmPairs data) else none

/-- `playAudioChunk` (script.js lines 220-243) at the byte level: create
the context on first use (lines 221-224), decode (line 226; a decode throw
escapes to the caller's try/catch with the context already created), set
`duration = sampleCount / 44100` (line 229, `createBuffer(1, n, 44100)`),
then run the clock update.  Returns the new playback state and the
scheduled start time when one exists. -/
def playAudioChunk (st : PlaybackState) (now : ℚ) (bytes : List ℕ) :
    PlaybackState × Option ℚ :=
  let st0 : PlaybackState := if st.initialized then st else ⟨true, now⟩
  match base64ToPCMFloat32 bytes with
  | none => (st0, none)
  | some samples =>
    let r := scheduleChunk st0.playheadTime now ((samples.length : ℚ) / 44100)
    (⟨true, r.2⟩, some r.1)

/-! ## Recording start, key check and WebSocket wiring
(script.js lines 246-315) -/

/-- The five credential fields kept in the module-level `apiKeys` object
(script.js lines 22-28); an unconfigured key is the empty string. -/
structure ApiKeys where
  murf : String
  assembly : String
  gemini : String
  tavily : String
  weather : String
  deriving DecidableEq, Repr

/-- The guard of script.js line 248: `startRecording` proceeds only when
the murf, assembly and gemini keys are all non-empty (a JS string is falsy
exactly when empty). -/
def requiredPresent (k : ApiKeys) : Bool :=
  !(k.murf == "") && !(k.assembly == "") && !(k.gemini == "")

/-- The payload of the `api_keys` control message sent in `ws.onopen`
(script.js lines 261-270). -/
def bundleKeys (k : ApiKeys) : List (String × String) :=
  [("x-murf-key", k.murf), ("x-assembly-key", k.assembly),
   ("x-gemini-key", k.gemini), ("x-tavily-key", k.tavily),
   ("x-weather-key", k.weather)]

/-- Client-to-server messages: the one JSON control message with the key
bundle (script.js lines 261-270) and binary PCM audio frames
(script.js line 312). -/
inductive ClientMsg where
  | ctrl (keys : List (String × String))
  | frame
  deriving DecidableEq, Repr

/-- `WebSocket.readyState` as relevant here: `CONNECTING` before the open
event, `OPEN` after it, `CLOSED` after close. -/
inductive WsState where
  | connecting
  | opened
  | closed
  deriving DecidableEq, Repr

/-- One WebSocket connection: its ready state and the ordered list of
messages the client has sent on it. -/
structure WsConn where
  state : WsState
  sent : List ClientMsg
  deriving DecidableEq, Repr

/-- A connection as just created by `new WebSocket(...)`
(script.js line 254). -/
def initConn : WsConn := ⟨WsState.connecting, []⟩

/-- Events delivered to the client's handlers on one connection:
the open event (fires once, when the socket leaves `CONNECTING`; the
browser sets `readyState` to `OPEN` and then runs `ws.onopen`, script.js
lines 258-271), an `onaudioprocess` capture callback (script.js lines
308-314, which sends a frame only when `ws.readyState === WebSocket.OPEN`,
line 311), and the close event. -/
inductive WsEvent where
  | openEvt
  | audioProcess
  | closeEvt
  deriving DecidableEq, Repr

/-- One event step of the connection, with the handlers installed by
`startRecording` for key bundle `k`. -/
def wsStep (k : ApiKeys) (c : WsConn) : WsEvent → WsConn
  | WsEvent.openEvt =>
    if c.state = WsState.connecting then
      ⟨WsState.opened, c.sent ++ [ClientMsg.ctrl (bundleKeys k)]⟩
    else c
  | WsEvent.audioProcess =>
    if c.state = WsState.opened then ⟨c.state, c.sent ++ [ClientMsg.frame]⟩ else c
  | WsEvent.closeEvt => ⟨WsState.closed, c.sent⟩

/-- Run a connection through a sequence of events. -/
def runWs (k : ApiKeys) (events : List WsEvent) (c : WsConn) : WsConn :=
  events.foldl (wsStep k) c

/-- Outcome of calling `startRecording` (script.js lines 246-315):
blocked by the key check of line 248 (error notification, no WebSocket),
or started, in which case the connection evolves under its events. -/
inductive StartResult where
  | blockedMissingKeys
  | started (conn : WsConn)
  deriving DecidableEq, Repr

/-- `startRecording` (script.js lines 246-315): check the three required
keys, then open the connection and let it run under `events`. -/
def startRecording (k : ApiKeys) (events : List WsEvent) : StartResult :=
  if requiredPresent k then StartResult.started (runWs k events initConn)
  else StartResult.blockedMissingKeys

/-! ## stopRecording (script.js lines 317-329) -/

/-- A client-held resource as seen by `stopRecording`'s truthiness guards:
`absent` (the module variable was never assigned, so the guard fails),
`live`, or `released` (the variable still holds the object, so the guard
still succeeds, but the resource has been detached/closed/stopped). -/
inductive ResState where
  | absent
  | live
  | released
  deriving DecidableEq, Repr

/-- Releasing a resource: disconnect / close / stop.  On an already
released resource these browser calls are no-throw no-ops (a second
`disconnect`, a `close()` on a closed context or socket, a `stop()` on a
stopped track), so the result is `released` again. -/
def releaseRes : ResState → ResState
  | ResState.absent => ResState.absent
  | _ => ResState.released

/-- The module-level resources touched by `stopRecording`: the script
processor and its `onaudioprocess` handler, the media-stream source node,
the capture `AudioContext`, the device `MediaStream`, and the WebSocket
(script.js lines 13-17). -/
structure RecorderState where
  processor : ResState
  handlerAttached : Bool
  source : ResState
  audioCtx : ResState
  stream : ResState
  ws : ResState
  deriving DecidableEq, Repr

/-- `stopRecording` (script.js lines 317-329): each guarded block acts
only when its variable is truthy; the `onaudioprocess` handler is nulled
together with the processor disconnect (lines 318-321).  None of the
guarded calls throws, so the function is total on every state. -/
def stopRecording (st : RecorderState) : RecorderState :=
  { processor := releaseRes st.processor
    handlerAttached :=
      if st.processor = ResState.absent then st.handlerAttached else false
    source := releaseRes st.source
    audioCtx := releaseRes st.audioCtx
    stream := releaseRes st.stream
    ws := releaseRes st.ws }

/-! ## The server-message handler (script.js lines 276-297) -/

/-- One entry of the chat log, as appended by `addTextMessage`
(script.js lines 131-137): the CSS class distinguishes sent, received and
error messages. -/
inductive ChatEntry where
  | sent (text : String)
  | received (text : String)
  | errorMsg (text : String)
  deriving DecidableEq, Repr

/-- A parsed server message, discriminated on its `type` field as in
script.js lines 281-292; `unknownType` covers every other `type` value
(the final `else` branch, line 290-292, which only logs). -/
inductive ServerMsg where
  | transcript (text : String)
  | aiResponse (text : String)
  | audioChunk (audio : List ℕ)
  | errMsg (message : String)
  | unknownType
  deriving DecidableEq, Repr

/-- The client state visible to `ws.onmessage`: the chat log, the playback
clock state and the `isRecording` flag. -/
structure ClientState where
  chatLog : List ChatEntry
  playback : PlaybackState
  isRecording : Bool
  deriving DecidableEq, Repr

/-- `ws.onmessage` (script.js lines 276-297).  The whole handler body is
one try/catch, so a `JSON.parse` throw (modelled as `none`) or a throw
escaping `playAudioChunk` is absorbed (lines 294-296).  `transcript`,
`ai_response` and `error` append one chat entry (lines 281-289);
`audio_chunk` runs the playback scheduler; any other `type` only logs
(lines 290-292). -/
def onMessage (st : ClientState) (now : ℚ) (event : Option ServerMsg) :
    ClientState :=
  match event with
  | none => st
  | some (ServerMsg.transcript t) =>
    { st with chatLog := st.chatLog ++ [ChatEntry.sent t] }
  | some (ServerMsg.aiResponse t) =>
    { st with chatLog := st.chatLog ++ [ChatEntry.received t] }
  | some (ServerMsg.audioChunk bytes) =>
    { st with playback := (playAudioChunk st.playback now bytes).1 }
  | some (ServerMsg.errMsg m) =>
    { st with chatLog := st.chatLog ++ [ChatEntry.errorMsg ("Error: " ++ m)] }
  | some ServerMsg.unknownType => st

/-! ## Helper lemmas -/

theorem toInt16_range (n : ℤ) : -32768 ≤ toInt16 n ∧ toInt16 n ≤ 32767 := by
  unfold toInt16
  split <;> omega

theorem toInt16_eq_self {n : ℤ} (h1 : -32768 ≤ n) (h2 : n ≤ 32767) :
    toInt16 n = n := by
  unfold toInt16
  split <;> omega

theorem clamp1_mem (x : ℚ) : -1 ≤ clamp1 x ∧ clamp1 x ≤ 1 := by
  unfold clamp1
  exact ⟨le_max_left _ _, max_le (by norm_num) (min_le_left _ _)⟩

theorem encodeRaw_bounds (x : ℚ) : -32768 ≤ encodeRaw x ∧ encodeRaw x ≤ 32767 := by
  obtain ⟨h1, h2⟩ := clamp1_mem x
  unfold encodeRaw truncJS
  by_cases hs : clamp1 x < 0
  · have hq : clamp1 x * 32768 < 0 := by nlinarith
    simp only [if_pos hs, if_pos hq]
    constructor
    · have : ((-32768 : ℤ) : ℚ) ≤ clamp1 x * 32768 := by push_cast; nlinarith
      calc (-32768 : ℤ) = ⌈((-32768 : ℤ) : ℚ)⌉ := (Int.ceil_intCast _).symm
        _ ≤ ⌈clamp1 x * 32768⌉ := Int.ceil_le_ceil this
    · have : clamp1 x * 32768 ≤ ((32767 : ℤ) : ℚ) := by push_cast; nlinarith
      exact Int.ceil_le.2 this
  · have hq : ¬ clamp1 x * 32767 < 0 := by push_neg at hs ⊢; nlinarith
    simp only [if_neg hs, if_neg hq]
    push_neg at hs hq
    constructor
    · have : ((-32768 : ℤ) : ℚ) ≤ clamp1 x * 32767 := by push_cast; nlinarith
      exact Int.le_floor.2 this
    · have : clamp1 x * 32767 ≤ ((32767 : ℤ) : ℚ) := by push_cast; nlinarith
      calc ⌊clamp1 x * 32767⌋ ≤ ⌊((32767 : ℤ) : ℚ)⌋ := Int.floor_le_floor this
        _ = 32767 := Int.floor_intCast _

/-- Claim C4: every input sample is clamped to `[-1,1]` before scaling, so
the truncated integer computed on script.js line 189 always lies in
`[-32768, 32767]`; the 16-bit store therefore never wraps
(`encodeSample x = encodeRaw x`), and the extremes map to the two 16-bit
extrema: `-1` to `-32768` and `+1` to `32767`. -/
theorem encoder_saturates (x : ℚ) :
    -32768 ≤ encodeRaw x ∧ encodeRaw x ≤ 32767 ∧
    encodeSample x = encodeRaw x ∧
    encodeSample (-1) = -32768 ∧ encodeSample 1 = 32767 := by
  obtain ⟨hl, hr⟩ := encodeRaw_bounds x
  refine ⟨hl, hr, toInt16_eq_self hl hr, ?_, ?_⟩
  · have hc : ⌈(-32768 : ℚ)⌉ = -32768 := by
      rw [show ((-32768 : ℚ)) = ((-32768 : ℤ) : ℚ) by norm_num, Int.ceil_intCast]
    norm_num [encodeSample, encodeRaw, clamp1, truncJS, toInt16, hc]
  · norm_num [encodeSample, encodeRaw, clamp1, truncJS, toInt16]

theorem readInt16LE_int16ToBytes {v : ℤ} (h1 : -32768 ≤ v) (h2 : v ≤ 32767) :
    readInt16LE ((v % 65536).toNat % 256) ((v % 65536).toNat / 256) = v := by
  unfold readInt16LE toInt16
  split <;> omega

theorem encode_decode_close {x : ℚ} (h1 : -1 ≤ x) (h2 : x ≤ 1) :
    |((encodeSample x : ℤ) : ℚ) / 32768 - x| < 2/32768 := by
  have hclamp : clamp1 x = x := by
    unfold clamp1
    rw [min_eq_right h2, max_eq_right h1]
  obtain ⟨hl, hr⟩ := encodeRaw_bounds x
  unfold encodeSample
  rw [toInt16_eq_self hl hr]
  unfold encodeRaw truncJS
  rw [hclamp]
  by_cases hs : x < 0
  · have hq : x * 32768 < 0 := by nlinarith
    simp only [if_pos hs, if_pos hq]
    have hle : (x * 32768 : ℚ) ≤ ⌈x * 32768⌉ := Int.le_ceil _
    have hlt : ((⌈x * 32768⌉ : ℤ) : ℚ) < x * 32768 + 1 := Int.ceil_lt_add_one _
    rw [abs_lt]
    constructor <;> linarith
  · have hq : ¬ x * 32767 < 0 := by push_neg at hs ⊢; nlinarith
    simp only [if_neg hs, if_neg hq]
    push_neg at hs hq
    have hle : ((⌊x * 32767⌋ : ℤ) : ℚ) ≤ x * 32767 := Int.floor_le _
    have hlt : (x * 32767 : ℚ) < ⌊x * 32767⌋ + 1 := Int.lt_floor_add_one _
    rw [abs_lt]
    constructor <;> linarith

/-- Claim C3 (amended): encoding samples in `[-1,1]` with `floatTo16BitPCM`
and decoding the bytes with the playback decoder's `int16 / 32768` step
(no RIFF header present) reproduces each sample to within two quantization
steps, strictly less than `2/32768`; one quantization step is exceeded for
positive samples close to 1 because they are scaled by `0x7fff` but decoded
against `0x8000`. -/
theorem pcm_roundtrip_close :
    ∀ xs : List ℚ, (∀ x ∈ xs, -1 ≤ x ∧ x ≤ 1) →
      List.Forall₂ (fun d x => |d - x| < 2/32768)
        (pcmPairs (floatTo16BitPCM xs)) xs := by
  intro xs h
  induction xs with
  | nil => exact List.Forall₂.nil
  | cons x rest ih =>
    obtain ⟨hx1, hx2⟩ := h x (List.mem_cons_self _ _)
    have hrange : -32768 ≤ encodeSample x ∧ encodeSample x ≤ 32767 :=
      toInt16_range (encodeRaw x)
    have hshape : floatTo16BitPCM (x :: rest) =
        ((encodeSample x) % 65536).toNat % 256 ::
          ((encodeSample x) % 65536).toNat / 256 :: floatTo16BitPCM rest := rfl
    have hb : pcmPairs (floatTo16BitPCM (x :: rest)) =
        ((encodeSample x : ℤ) : ℚ) / 32768 :: pcmPairs (floatTo16BitPCM rest) := by
      rw [hshape]
      show ((readInt16LE _ _ : ℤ) : ℚ) / 32768 :: pcmPairs (floatTo16BitPCM rest) = _
      rw [readInt16LE_int16ToBytes hrange.1 hrange.2]
    rw [hb]
    exact List.Forall₂.cons (encode_decode_close hx1 hx2)
      (ih (fun y hy => h y (List.mem_cons_of_mem _ hy)))

/-- Witness for C3 (amended) at the sample `1/2`: its round trip is within
the two-step bound. -/
theorem pcm_roundtrip_close_witness :
    List.Forall₂ (fun d x => |d - x| < 2/32768)
      (pcmPairs (floatTo16BitPCM [(1 : ℚ)/2])) [(1 : ℚ)/2] :=
  pcm_roundtrip_close [(1 : ℚ)/2] (by norm_num)

/-- Counterexample to C3 as stated: the in-range sample `65535/65536`
encodes to `32766` (it is scaled by `0x7fff` and truncated), which decodes
to `32766/32768`, an error of `3/65536`, more than one quantization step
`1/32768 = 2/65536`. -/
theorem pcm_roundtrip_one_step_counterexample :
    -1 ≤ (65535 : ℚ)/65536 ∧ (65535 : ℚ)/65536 ≤ 1 ∧
    ¬ List.Forall₂ (fun d x => |d - x| ≤ 1/32768)
      (pcmPairs (floatTo16BitPCM [(65535 : ℚ)/65536])) [(65535 : ℚ)/65536] := by
  have habs : |(3 : ℚ)/65536| = 3/65536 := abs_of_pos (by norm_num)
  refine ⟨by norm_num, by norm_num, ?_⟩
  norm_num [pcmPairs, floatTo16BitPCM, encodeSample, encodeRaw, clamp1, truncJS,
    toInt16, int16ToBytes, readInt16LE, List.forall₂_cons]
  norm_num [habs]

theorem playheadUpdate_initialized (st : PlaybackState) (now dur : ℚ) :
    (playheadUpdate st now dur).2.initialized = true := rfl

theorem playheadUpdate_mono {st : PlaybackState} {now dur : ℚ}
    (hnow : 0 ≤ now) (hdur : 0 ≤ dur)
    (hinv : st.initialized = false → st.playheadTime = 0) :
    st.playheadTime ≤ (playheadUpdate st now dur).2.playheadTime := by
  cases hst : st.initialized with
  | true =>
    simp only [playheadUpdate, scheduleChunk, hst, if_true]
    split
    · next h => linarith
    · next h => linarith
  | false =>
    have h0 := hinv hst
    simp [playheadUpdate, scheduleChunk, hst, h0]
    linarith

theorem runPlayhead_mono :
    ∀ (calls : List (ℚ × ℚ)) (st : PlaybackState),
      (∀ c ∈ calls, 0 ≤ c.1 ∧ 0 ≤ c.2) →
      (st.initialized = false → st.playheadTime = 0) →
      st.playheadTime ≤ (runPlayhead st calls).playheadTime := by
  intro calls
  induction calls with
  | nil => intro st _ _; exact le_refl _
  | cons c rest ih =>
    intro st h hinv
    obtain ⟨h1, h2⟩ := h c (List.mem_cons_self _ _)
    have step := playheadUpdate_mono h1 h2 hinv
    have next := ih (playheadUpdate st c.1 c.2).2
      (fun d hd => h d (List.mem_cons_of_mem _ hd))
      (fun hfalse => by
        rw [playheadUpdate_initialized] at hfalse
        exact absurd hfalse (by simp))
    exact le_trans step next

theorem runPlayhead_inv :
    ∀ (calls : List (ℚ × ℚ)) (st : PlaybackState),
      (st.initialized = false → st.playheadTime = 0) →
      ((runPlayhead st calls).initialized = false →
        (runPlayhead st calls).playheadTime = 0)
  | [], st => fun h => h
  | c :: rest, st => fun _ =>
      runPlayhead_inv rest (playheadUpdate st c.1 c.2).2
        (fun hfalse => by
          rw [playheadUpdate_initialized] at hfalse
          exact absurd hfalse (by simp))

/-- Claim C1: starting from the initial client state, the playhead clock
never decreases across any sequence of `playAudioChunk` calls whose clock
readings are non-negative (the audio context's `currentTime` is monotone
from 0) and whose durations are non-negative; and when chunk `k`'s
scheduled start is still at least the 150 ms pre-roll ahead of `now` at
chunk `k+1`'s arrival, chunk `k+1` starts exactly at chunk `k`'s start
plus chunk `k`'s duration. -/
theorem playhead_monotone_and_steady :
    (∀ (pre post : List (ℚ × ℚ)),
      (∀ c ∈ pre ++ post, 0 ≤ c.1 ∧ 0 ≤ c.2) →
      (runPlayhead initPlayback pre).playheadTime ≤
        (runPlayhead initPlayback (pre ++ post)).playheadTime) ∧
    (∀ (st : PlaybackState) (now now' durk durk1 : ℚ), 0 ≤ durk →
      now' + 3/20 ≤ (playheadUpdate st now durk).1 →
      (playheadUpdate (playheadUpdate st now durk).2 now' durk1).1 =
        (playheadUpdate st now durk).1 + durk) := by
  constructor
  · intro pre post h
    have hsplit : runPlayhead initPlayback (pre ++ post) =
        runPlayhead (runPlayhead initPlayback pre) post := by
      unfold runPlayhead
      exact List.foldl_append _ _ _ _
    rw [hsplit]
    refine runPlayhead_mono post (runPlayhead initPlayback pre) ?_ ?_
    · intro c hc
      exact h c (List.mem_append_right _ hc)
    · exact runPlayhead_inv pre initPlayback (fun _ => rfl)
  · intro st now now' durk durk1 hdurk hsteady
    unfold playheadUpdate scheduleChunk at hsteady ⊢
    simp only [if_true]
    have hnot : ¬ ((if (if st.initialized then st.playheadTime else now) <
        now + 3/20 then now + 3/20
        else if st.initialized then st.playheadTime else now) + durk <
          now' + 3/20) := by
      simp only at hsteady
      push_neg
      linarith
    rw [if_neg hnot]

/-- Witness for C1 at concrete inputs: one chunk then another, and a
steady second arrival continuing exactly where the first chunk ends. -/
theorem playhead_monotone_and_steady_witness :
    (runPlayhead initPlayback [((0 : ℚ), (1 : ℚ))]).playheadTime ≤
      (runPlayhead initPlayback ([((0 : ℚ), (1 : ℚ))] ++ [((1 : ℚ), (1 : ℚ))])).playheadTime ∧
    (playheadUpdate (playheadUpdate initPlayback 0 1).2 0 5).1 =
      (playheadUpdate initPlayback 0 1).1 + 1 := by
  constructor
  · exact playhead_monotone_and_steady.1 [(0, 1)] [(1, 1)] (by norm_num)
  · exact playhead_monotone_and_steady.2 initPlayback 0 0 1 5 (by norm_num)
      (by norm_num [playheadUpdate, scheduleChunk, initPlayback])

/-- Counterexample to C2 as stated: with the clock at `1/10` and
`now = 0`, the scheduled time is strictly in the future (`0 < 1/10`), yet
the scheduler does not keep it — script.js line 237 snaps whenever the
clock is less than `now + 0.15`, so the chunk is scheduled at `3/20`,
not at `1/10`. -/
theorem schedule_keeps_future_counterexample :
    (0 : ℚ) < 1/10 ∧
    ({ initialized := true, playheadTime := 1/10 } : PlaybackState).initialized
      = true ∧
    (playheadUpdate { initialized := true, playheadTime := 1/10 } 0 0).1
      ≠ 1/10 := by
  refine ⟨by norm_num, rfl, ?_⟩
  norm_num [playheadUpdate, scheduleChunk]

/-- Claim C2 (amended): for every arriving chunk after initialisation, the
scheduler keeps the clock unchanged when it is at least the 150 ms
pre-roll ahead of `now`, snaps it to `now + 0.15` when it is less than
`now + 0.15` ahead (even if still in the future), schedules the chunk at
the resulting clock value, and advances the clock by exactly the chunk's
duration. -/
theorem schedule_rule :
    ∀ (st : PlaybackState) (now dur : ℚ), st.initialized = true →
      ((now + 3/20 ≤ st.playheadTime →
        (playheadUpdate st now dur).1 = st.playheadTime) ∧
       (st.playheadTime < now + 3/20 →
        (playheadUpdate st now dur).1 = now + 3/20) ∧
       (playheadUpdate st now dur).2.playheadTime =
         (playheadUpdate st now dur).1 + dur) := by
  intro st now dur hinit
  refine ⟨?_, ?_, ?_⟩
  · intro h
    simp [playheadUpdate, scheduleChunk, hinit]
    intro hlt
    linarith
  · intro h
    simp [playheadUpdate, scheduleChunk, hinit, h]
  · simp [playheadUpdate, scheduleChunk, hinit]

/-- Witness for C2 (amended): a clock well ahead of `now` is kept, a
clock behind `now + 0.15` is snapped, and the clock advances by the
duration. -/
theorem schedule_rule_witness :
    (playheadUpdate { initialized := true, playheadTime := 2 } 0 (1/2)).1 = 2 ∧
    (playheadUpdate { initialized := true, playheadTime := 1/10 } 0 (1/2)).1
      = 0 + 3/20 ∧
    (playheadUpdate { initialized := true, playheadTime := 2 } 0 (1/2)).2.playheadTime
      = (playheadUpdate { initialized := true, playheadTime := 2 } 0 (1/2)).1 + 1/2 := by
  refine ⟨?_, ?_, ?_⟩
  · exact (schedule_rule { initialized := true, playheadTime := 2 } 0 (1/2) rfl).1
      (by norm_num)
  · exact (schedule_rule { initialized := true, playheadTime := 1/10 } 0 (1/2) rfl).2.1
      (by norm_num)
  · exact (schedule_rule { initialized := true, playheadTime := 2 } 0 (1/2) rfl).2.2

theorem pcmPairs_length : ∀ l : List ℕ, (pcmPairs l).length = l.length / 2
  | [] => by simp [pcmPairs]
  | [_] => by simp [pcmPairs]
  | _ :: _ :: rest => by
    simp only [pcmPairs, List.length_cons]
    rw [pcmPairs_length rest]
    omega

theorem pcmPairs_getElem? :
    ∀ (i : ℕ) (l : List ℕ) (lo hi : ℕ),
      l[2*i]? = some lo → l[2*i+1]? = some hi →
      (pcmPairs l)[i]? = some ((readInt16LE lo hi : ℚ) / 32768)
  | _, [], _, _ => by
    intro h1 _
    simp at h1
  | 0, [_], _, _ => by
    intro _ h2
    simp at h2
  | 0, a :: b :: rest, lo, hi => by
    intro h1 h2
    simp only [Nat.mul_zero, Nat.zero_add, List.getElem?_cons_zero,
      Option.some_inj] at h1
    simp only [Nat.mul_zero, Nat.zero_add, List.getElem?_cons_succ,
      List.getElem?_cons_zero, Option.some_inj] at h2
    subst h1
    subst h2
    simp [pcmPairs]
  | (n+1), [_], _, _ => by
    intro h1 _
    rw [show 2*(n+1) = 2*n + 1 + 1 by ring] at h1
    simp [List.getElem?_cons_succ] at h1
  | (n+1), a :: b :: rest, lo, hi => by
    intro h1 h2
    rw [show 2*(n+1) = 2*n + 1 + 1 by ring] at h1
    rw [show 2*(n+1) + 1 = (2*n + 1 + 1) + 1 by ring] at h2
    simp only [List.getElem?_cons_succ] at h1 h2
    have := pcmPairs_getElem? n rest lo hi h1 h2
    simpa [pcmPairs] using this

/-- Claim C5: whenever the decoder produces samples, the 44-byte header
was dropped exactly when the payload is longer than 44 bytes and begins
with the `"RIFF"` magic bytes, and otherwise decoding started at offset 0;
and every consecutive little-endian byte pair of the remaining data
becomes one sample equal to the signed 16-bit value divided by 32768. -/
theorem audio_decoder_spec :
    ∀ (bytes : List ℕ) (samples : List ℚ),
      base64ToPCMFloat32 bytes = some samples →
      ((44 < bytes.length ∧ bytes.take 4 = [82, 73, 70, 70]) →
        stripHeader bytes = bytes.drop 44) ∧
      (¬(44 < bytes.length ∧ bytes.take 4 = [82, 73, 70, 70]) →
        stripHeader bytes = bytes) ∧
      samples.length = (stripHeader bytes).length / 2 ∧
      (∀ (i lo hi : ℕ), (stripHeader bytes)[2*i]? = some lo →
        (stripHeader bytes)[2*i+1]? = some hi →
        samples[i]? = some ((readInt16LE lo hi : ℚ) / 32768)) := by
  intro bytes samples h
  have hsamples : samples = pcmPairs (stripHeader bytes) := by
    unfold base64ToPCMFloat32 at h
    by_cases hp : (stripHeader bytes).length % 2 = 0
    · rw [if_pos hp] at h
      exact (Option.some_inj.1 h).symm
    · rw [if_neg hp] at h
      exact absurd h (by simp)
  subst hsamples
  refine ⟨?_, ?_, pcmPairs_length _, ?_⟩
  · intro hc
    unfold stripHeader
    rw [if_pos hc]
  · intro hc
    unfold stripHeader
    rw [if_neg hc]
  · intro i lo hi h1 h2
    exact pcmPairs_getElem? i (stripHeader bytes) lo hi h1 h2

/-- Witness for C5: a 46-byte payload starting with `"RIFF"` has its
44-byte header dropped, and the remaining pair `(0, 128)` decodes to the
sample `-32768/32768 = -1`. -/
theorem audio_decoder_spec_witness :
    stripHeader ([82, 73, 70, 70] ++ List.replicate 40 0 ++ [0, 128]) =
      ([82, 73, 70, 70] ++ List.replicate 40 0 ++ [0, 128]).drop 44 ∧
    (pcmPairs (stripHeader ([82, 73, 70, 70] ++ List.replicate 40 0 ++ [0, 128])))[0]?
      = some ((readInt16LE 0 128 : ℚ) / 32768) := by
  have h : base64ToPCMFloat32 ([82, 73, 70, 70] ++ List.replicate 40 0 ++ [0, 128]) =
      some (pcmPairs (stripHeader ([82, 73, 70, 70] ++ List.replicate 40 0 ++ [0, 128]))) := by
    norm_num [base64ToPCMFloat32, stripHeader, List.replicate]
  have spec := audio_decoder_spec _ _ h
  refine ⟨spec.1 ⟨by norm_num [List.replicate], by norm_num⟩, ?_⟩
  refine spec.2.2.2 0 0 128 ?_ ?_
  · norm_num [stripHeader, List.replicate]
  · norm_num [stripHeader, List.replicate]

/-- Invariant carried along a connection: the sent list is empty or the
control message followed by audio frames only; nothing is sent while still
connecting; and nothing can have reached the open state without the
control message having been sent. -/
def wsInv (k : ApiKeys) (c : WsConn) : Prop :=
  (c.sent = [] ∨
    ∃ n, c.sent = ClientMsg.ctrl (bundleKeys k) :: List.replicate n ClientMsg.frame) ∧
  (c.state = WsState.connecting → c.sent = []) ∧
  (c.sent = [] → c.state ≠ WsState.opened)

theorem wsStep_inv (k : ApiKeys) (c : WsConn) (e : WsEvent)
    (h : wsInv k c) : wsInv k (wsStep k c e) := by
  obtain ⟨h1, h2, h3⟩ := h
  cases e with
  | openEvt =>
    by_cases hc : c.state = WsState.connecting
    · have hsent : c.sent = [] := h2 hc
      unfold wsStep
      rw [if_pos hc]
      refine ⟨Or.inr ⟨0, by simp [hsent]⟩, by simp, by simp [hsent]⟩
    · unfold wsStep
      rw [if_neg hc]
      exact ⟨h1, h2, h3⟩
  | audioProcess =>
    by_cases hc : c.state = WsState.opened
    · have hne : c.sent ≠ [] := fun he => (h3 he) hc
      obtain ⟨n, hn⟩ := h1.resolve_left hne
      unfold wsStep
      rw [if_pos hc]
      refine ⟨Or.inr ⟨n + 1, ?_⟩, ?_, ?_⟩
      · simp [hn, List.replicate_succ']
      · intro hcon
        simp only at hcon
        rw [hcon] at hc
        exact absurd hc (by simp)
      · intro he
        simp [hn] at he
    · unfold wsStep
      rw [if_neg hc]
      exact ⟨h1, h2, h3⟩
  | closeEvt =>
    exact ⟨h1, by simp [wsStep], by simp [wsStep]⟩

theorem runWs_inv (k : ApiKeys) :
    ∀ (events : List WsEvent) (c : WsConn), wsInv k c →
      wsInv k (runWs k events c)
  | [], _ => id
  | e :: rest, c => fun h => runWs_inv k rest (wsStep k c e) (wsStep_inv k c e h)

/-- Claim C6: on every connection, whatever events occur, the client
either has sent nothing yet or has sent the `api_keys` control message
exactly once, as the first message, followed only by binary audio frames;
and while the connection has not delivered its open event the capture
callback has sent nothing. -/
theorem control_message_first (k : ApiKeys) (events : List WsEvent) :
    ((runWs k events initConn).sent = [] ∨
      ∃ n, (runWs k events initConn).sent =
        ClientMsg.ctrl (bundleKeys k) :: List.replicate n ClientMsg.frame) ∧
    ((runWs k events initConn).state = WsState.connecting →
      (runWs k events initConn).sent = []) := by
  have h := runWs_inv k events initConn
    ⟨Or.inl rfl, fun _ => rfl, fun _ => by simp [initConn]⟩
  exact ⟨h.1, h.2.1⟩

/-- Witness for C6: before any event the connection is still connecting
and nothing has been sent; after an open event followed by a capture
callback the sent list is the control message then one frame. -/
theorem control_message_first_witness :
    (runWs ⟨"m", "a", "g", "t", "w"⟩ [] initConn).sent = [] ∧
    (runWs ⟨"m", "a", "g", "t", "w"⟩ [WsEvent.openEvt, WsEvent.audioProcess]
      initConn).sent =
      ClientMsg.ctrl (bundleKeys ⟨"m", "a", "g", "t", "w"⟩) ::
        List.replicate 1 ClientMsg.frame := by
  constructor
  · exact (control_message_first ⟨"m", "a", "g", "t", "w"⟩ []).2 rfl
  · simp [runWs, wsStep, initConn, List.replicate]

/-- Counterexample to C7 as stated: a bundle missing the murf (synthesis)
credential is an error at connection time — `startRecording` shows the
configure-keys notification and returns before any WebSocket is created
(script.js lines 248-252), so no connection is established. -/
theorem missing_key_blocks_counterexample :
    startRecording ⟨"", "a", "g", "t", "w"⟩ [WsEvent.openEvt] =
      StartResult.blockedMissingKeys := by
  simp [startRecording, requiredPresent]

/-- Claim C7 (amended): absence of a non-essential credential (web-search
or weather) is not an error at connection time — the connection is still
opened and run; but absence of any of the murf, assembly or gemini
credentials is reported immediately by `startRecording` and no connection
is established. -/
theorem connection_time_key_policy (k : ApiKeys) (events : List WsEvent) :
    ((k.murf ≠ "" ∧ k.assembly ≠ "" ∧ k.gemini ≠ "") →
      startRecording k events = StartResult.started (runWs k events initConn)) ∧
    ((k.murf = "" ∨ k.assembly = "" ∨ k.gemini = "") →
      startRecording k events = StartResult.blockedMissingKeys) := by
  constructor
  · rintro ⟨h1, h2, h3⟩
    have hreq : requiredPresent k = true := by
      simp [requiredPresent, h1, h2, h3]
    simp [startRecording, hreq]
  · intro h
    have hreq : requiredPresent k = false := by
      rcases h with h | h | h <;> simp [requiredPresent, h]
    simp [startRecording, hreq]

/-- Witness for C7 (amended): with the three essential keys present and
both non-essential keys empty the recording starts, while an empty gemini
key blocks it. -/
theorem connection_time_key_policy_witness :
    startRecording ⟨"m", "a", "g", "", ""⟩ [] =
      StartResult.started (runWs ⟨"m", "a", "g", "", ""⟩ [] initConn) ∧
    startRecording ⟨"m", "a", "", "t", "w"⟩ [] =
      StartResult.blockedMissingKeys := by
  constructor
  · exact (connection_time_key_policy ⟨"m", "a", "g", "", ""⟩ []).1
      ⟨by decide, by decide, by decide⟩
  · exact (connection_time_key_policy ⟨"m", "a", "", "t", "w"⟩ []).2
      (Or.inr (Or.inr rfl))

/-- Claim C8: when the weather or the web-search credential is absent but
murf, assembly and gemini are present, `startRecording` still proceeds: it
opens the connection, sends the capability bundle (with the absent
credential carried as the empty string inside `bundleKeys k`), and then
the capture callback sends an audio frame. -/
theorem nonessential_absent_still_records (k : ApiKeys)
    (h1 : k.murf ≠ "") (h2 : k.assembly ≠ "") (h3 : k.gemini ≠ "")
    (habsent : k.tavily = "" ∨ k.weather = "") :
    startRecording k [WsEvent.openEvt, WsEvent.audioProcess] =
      StartResult.started
        ⟨WsState.opened, [ClientMsg.ctrl (bundleKeys k), ClientMsg.frame]⟩ := by
  have hreq : requiredPresent k = true := by
    simp [requiredPresent, h1, h2, h3]
  simp [startRecording, hreq, runWs, wsStep, initConn]

/-- Witness for C8: concrete keys with the weather credential empty still
start, connect, send the bundle and send audio. -/
theorem nonessential_absent_still_records_witness :
    startRecording ⟨"m", "a", "g", "t", ""⟩
      [WsEvent.openEvt, WsEvent.audioProcess] =
      StartResult.started
        ⟨WsState.opened,
          [ClientMsg.ctrl (bundleKeys ⟨"m", "a", "g", "t", ""⟩),
            ClientMsg.frame]⟩ :=
  nonessential_absent_still_records ⟨"m", "a", "g", "t", ""⟩
    (by decide) (by decide) (by decide) (Or.inr rfl)

theorem releaseRes_idem (r : ResState) :
    releaseRes (releaseRes r) = releaseRes r := by
  cases r <;> rfl

theorem releaseRes_absent (r : ResState) :
    releaseRes r = ResState.absent ↔ r = ResState.absent := by
  cases r <;> simp [releaseRes]

/-- Claim C9: `stopRecording` is safe in every client state — it is a
total function (none of its guarded browser calls throws), a repeated call
leaves the released state unchanged, resources that are absent are left
untouched (in particular a stop before any start does nothing), and
resources that are present end up released with the capture handler
detached. -/
theorem stop_recording_safe (st : RecorderState) :
    stopRecording (stopRecording st) = stopRecording st ∧
    (st.processor = ResState.absent →
      (stopRecording st).processor = ResState.absent ∧
      (stopRecording st).handlerAttached = st.handlerAttached) ∧
    (st.processor ≠ ResState.absent →
      (stopRecording st).processor = ResState.released ∧
      (stopRecording st).handlerAttached = false) ∧
    (st.source = ResState.absent → (stopRecording st).source = ResState.absent) ∧
    (st.source ≠ ResState.absent → (stopRecording st).source = ResState.released) ∧
    (st.audioCtx = ResState.absent → (stopRecording st).audioCtx = ResState.absent) ∧
    (st.audioCtx ≠ ResState.absent → (stopRecording st).audioCtx = ResState.released) ∧
    (st.stream = ResState.absent → (stopRecording st).stream = ResState.absent) ∧
    (st.stream ≠ ResState.absent → (stopRecording st).stream = ResState.released) ∧
    (st.ws = ResState.absent → (stopRecording st).ws = ResState.absent) ∧
    (st.ws ≠ ResState.absent → (stopRecording st).ws = ResState.released) := by
  obtain ⟨p, h, s, a, m, w⟩ := st
  refine ⟨?_, ?_, ?_, ?_, ?_, ?_, ?_, ?_, ?_, ?_, ?_⟩
  · cases p <;> cases s <;> cases a <;> cases m <;> cases w <;> rfl
  · intro hyp
    simp only at hyp
    simp [stopRecording, hyp, releaseRes]
  · intro hyp
    simp only at hyp
    cases p <;> simp_all [stopRecording, releaseRes]
  · intro hyp
    simp only at hyp
    simp [stopRecording, hyp, releaseRes]
  · intro hyp
    simp only at hyp
    cases s <;> simp_all [stopRecording, releaseRes]
  · intro hyp
    simp only at hyp
    simp [stopRecording, hyp, releaseRes]
  · intro hyp
    simp only at hyp
    cases a <;> simp_all [stopRecording, releaseRes]
  · intro hyp
    simp only at hyp
    simp [stopRecording, hyp, releaseRes]
  · intro hyp
    simp only at hyp
    cases m <;> simp_all [stopRecording, releaseRes]
  · intro hyp
    simp only at hyp
    simp [stopRecording, hyp, releaseRes]
  · intro hyp
    simp only at hyp
    cases w <;> simp_all [stopRecording, releaseRes]

/-- Witness for C9: stopping before anything was started (all resources
absent) changes nothing and is idempotent; stopping a fully live state
releases the socket. -/
theorem stop_recording_safe_witness :
    stopRecording (stopRecording
      ⟨ResState.absent, true, ResState.absent, ResState.absent,
        ResState.absent, ResState.absent⟩) =
      stopRecording
        ⟨ResState.absent, true, ResState.absent, ResState.absent,
          ResState.absent, ResState.absent⟩ ∧
    (stopRecording
      ⟨ResState.absent, true, ResState.absent, ResState.absent,
        ResState.absent, ResState.absent⟩).handlerAttached = true ∧
    (stopRecording
      ⟨ResState.live, true, ResState.live, ResState.live,
        ResState.live, ResState.live⟩).ws = ResState.released := by
  refine ⟨(stop_recording_safe _).1, ?_, ?_⟩
  · exact ((stop_recording_safe
      ⟨ResState.absent, true, ResState.absent, ResState.absent,
        ResState.absent, ResState.absent⟩).2.1 rfl).2
  · exact (stop_recording_safe
      ⟨ResState.live, true, ResState.live, ResState.live,
        ResState.live, ResState.live⟩).2.2.2.2.2.2.2.2.2.2 (by decide)

/-- Claim C10: the `ws.onmessage` handler is total, and any message that
is not valid JSON (the parse throw is caught) or whose `type` is none of
`transcript`, `ai_response`, `audio_chunk`, `error` leaves the chat log,
the playback clock and the recording state unchanged. -/
theorem unknown_messages_inert (st : ClientState) (now : ℚ)
    (event : Option ServerMsg)
    (h : event = none ∨ event = some ServerMsg.unknownType) :
    onMessage st now event = st := by
  rcases h with rfl | rfl <;> rfl

/-- Witness for C10: a parse failure and an unknown message type both
leave a concrete client state untouched. -/
theorem unknown_messages_inert_witness :
    onMessage ⟨[], initPlayback, false⟩ 0 none = ⟨[], initPlayback, false⟩ ∧
    onMessage ⟨[], initPlayback, false⟩ 0 (some ServerMsg.unknownType) =
      ⟨[], initPlayback, false⟩ :=
  ⟨unknown_messages_inert ⟨[], initPlayback, false⟩ 0 none (Or.inl rfl),
    unknown_messages_inert ⟨[], initPlayback, false⟩ 0
      (some ServerMsg.unknownType) (Or.inr rfl)⟩
